import Mathlib

/- Verification of the LifeOS capture-and-classification pipeline.

Shallow embedding of:
  - src/lib/gemini.ts             parseCapture: fence stripping, JSON parsing,
                                  post-parse date conversion
  - src/lib/supabase-storage.ts   SupabaseStorageService: notes.create merge
                                  logic, transactions.create date handling,
                                  escapeHtml, extractMergeInfo
  - src/lib/google-calendar.ts    googleCalendarRequest / pushToGoogleCalendar
  - src/components/CaptureBox.tsx handleConfirm, the capture orchestration

JavaScript strings are modelled as Lean strings (lists of characters), JS Date
values as integer milliseconds since the Unix epoch, and the browser timezone
as a fixed offset in minutes (the value Date.prototype.getTimezoneOffset
returns; daylight-saving transitions are not modelled). -/

namespace LifeOS

/-- ECMAScript whitespace: the character class trimmed by
String.prototype.trim and matched by the regex class \s. -/
def jsIsWhite (c : Char) : Bool :=
  c = ' ' || c = '\t' || c = '\n' || c = Char.ofNat 11 || c = Char.ofNat 12 ||
  c = '\r' || c = Char.ofNat 0xa0 || c = Char.ofNat 0x1680 ||
  (0x2000 ≤ c.toNat && c.toNat ≤ 0x200a) || c = Char.ofNat 0x2028 ||
  c = Char.ofNat 0x2029 || c = Char.ofNat 0x202f || c = Char.ofNat 0x205f ||
  c = Char.ofNat 0x3000 || c = Char.ofNat 0xfeff

/-- ECMAScript line terminators: the characters the regex `.` does not match
when the s flag is absent. -/
def jsIsLineTerm (c : Char) : Bool :=
  c = '\n' || c = '\r' || c = Char.ofNat 0x2028 || c = Char.ofNat 0x2029

/-- String.prototype.trim on a character list. -/
def jsTrimList (s : List Char) : List Char :=
  ((s.dropWhile jsIsWhite).reverse.dropWhile jsIsWhite).reverse

/-- String.prototype.trim. -/
def jsTrim (s : String) : String := String.mk (jsTrimList s.data)

/-- String.prototype.replace with a global single-character pattern and a
literal replacement (the shape used by escapeHtml). -/
def replaceAllChar (c : Char) (rep : List Char) : List Char → List Char
  | [] => []
  | x :: xs =>
    if x = c then rep ++ replaceAllChar c rep xs else x :: replaceAllChar c rep xs

/-- escapeHtml from supabase-storage.ts (lines 569-571): replace all
ampersands, then all less-than signs, then all greater-than signs. -/
def escapeHtml (s : String) : String :=
  String.mk (replaceAllChar '>' "&gt;".data
    (replaceAllChar '<' "&lt;".data
      (replaceAllChar '&' "&amp;".data s.data)))

/-- ASCII lowercasing, the model of String.prototype.toLowerCase and of the
case folding PostgreSQL ILIKE performs (all strings in this development are
compared in the ASCII range). -/
def lowerStr (s : String) : String := String.mk (s.data.map Char.toLower)

/-! ### The merge regex  ^(.+?)(?::|-)\s*(.+)$

extractMergeInfo matches the trimmed title-or-content against this pattern
with ECMAScript semantics: `.` matches everything but line terminators, the
first group is lazy, the whitespace run is greedy, and the engine backtracks.
The functions below implement that operationally. -/

/-- The characters `.` matches (no s flag). -/
def isDotChar (c : Char) : Bool := !(jsIsLineTerm c)

/-- The separator alternation (?::|-). -/
def isSepChar (c : Char) : Bool := c = ':' || c = '-'

/-- Backtracking match of the pattern suffix `\s*(.+)$` against t when the
greedy whitespace run currently keeps k characters: if the rest of t is a
nonempty run of dot-characters reaching the end, that rest is the (.+)
capture, otherwise the whitespace run gives one character back. -/
def entryAt (t : List Char) : Nat → Option (List Char)
  | 0 => if !t.isEmpty && t.all isDotChar then some t else none
  | Nat.succ k =>
    let r := t.drop (Nat.succ k)
    if !r.isEmpty && r.all isDotChar then some r else entryAt t k

/-- Match of `\s*(.+)$` against t, starting with the maximal whitespace run
(greedy `\s*` with backtracking). -/
def tailMatch (t : List Char) : Option (List Char) :=
  entryAt t (t.takeWhile jsIsWhite).length

/-- Backtracking search for `^(.+?)(?::|-)\s*(.+)$`: pre is the reversed
candidate first group (nonempty, all dot-characters). The lazy group grows
one character at a time; at each candidate separator the remainder must match
`\s*(.+)$`, otherwise the separator character is absorbed into the group. -/
def findSplit : List Char → List Char → Option (List Char × List Char)
  | _, [] => none
  | pre, c :: rest =>
    if isSepChar c then
      match tailMatch rest with
      | some e => some (pre.reverse, e)
      | none => if isDotChar c then findSplit (c :: pre) rest else none
    else if isDotChar c then findSplit (c :: pre) rest else none

/-- The full anchored match: source.match(/^(.+?)(?::|-)\s*(.+)$/), returning
the two capture groups. -/
def regexMergeMatch : List Char → Option (List Char × List Char)
  | [] => none
  | c :: rest => if isDotChar c then findSplit [c] rest else none

/-- The expression (note.title || note.content || '') at the top of
extractMergeInfo: the title when present and nonempty, otherwise the
content (falling through to '' exactly when the content is also empty). -/
def mergeSource (title : Option String) (content : String) : String :=
  match title with
  | some t => if t ≠ "" then t else content
  | none => content

structure MergeInfo where
  bucketTitle : String
  entry : String
deriving DecidableEq

/-- extractMergeInfo from supabase-storage.ts (lines 573-581), shared
verbatim with the local storage service: trim the title-or-content, match
the bucket regex, trim both groups, and fail when either trims to empty. -/
def extractMergeInfo (title : Option String) (content : String) : Option MergeInfo :=
  let source := jsTrimList (mergeSource title content).data
  match regexMergeMatch source with
  | none => none
  | some g =>
    let bucketTitle := jsTrimList g.1
    let entry := jsTrimList g.2
    if bucketTitle.isEmpty || entry.isEmpty then none
    else some ⟨String.mk bucketTitle, String.mk entry⟩

/-! ### PostgreSQL LIKE / ILIKE

notes.create looks the merge target up with
supabase.from('notes').ilike('title', bucketTitle).limit(1): the bucket
title is used as a case-insensitive LIKE pattern, in which % matches any
character run, _ matches any single character, and a backslash escapes the
following pattern character. A pattern ending in a bare backslash is an
error in PostgreSQL; it is modelled here as matching nothing. -/

/-- Fuelled LIKE matcher; fuel bounds the recursion depth and
likeMatch below always supplies enough. -/
def likeMatchF : Nat → List Char → List Char → Bool
  | 0, _, _ => false
  | _ + 1, [], t => t.isEmpty
  | f + 1, c :: p1, t =>
    if c = '%' then
      likeMatchF f p1 t ||
        (match t with
         | [] => false
         | _ :: t1 => likeMatchF f (c :: p1) t1)
    else if c = '_' then
      (match t with
       | [] => false
       | _ :: t1 => likeMatchF f p1 t1)
    else if c = '\\' then
      (match p1 with
       | [] => false
       | c2 :: p2 =>
         match t with
         | [] => false
         | x :: t1 => x = c2 && likeMatchF f p2 t1)
    else
      (match t with
       | [] => false
       | x :: t1 => x = c && likeMatchF f p1 t1)

/-- LIKE pattern matching (pattern, text). -/
def likeMatch (p t : List Char) : Bool :=
  likeMatchF (p.length + t.length + 1) p t

/-- ILIKE with the bucket title as the pattern and a stored note title as
the text. -/
def noteILike (bucket title : String) : Bool :=
  likeMatch (lowerStr bucket).data (lowerStr title).data

/-! ### Data model

Records as stored by SupabaseStorageService, with DB-generated columns
(id, created_at, updated_at) made explicit arguments of the operations. -/

structure Task where
  id : Nat
  userId : String
  title : String
  description : Option String
  dueDate : Option Int
  priority : String
  isCompleted : Bool
  isRecurring : Bool
  recurrenceRule : Option String
  completedAt : Option Int
  photoUrl : Option String
  createdAt : Int
  updatedAt : Int
deriving DecidableEq

structure Event where
  id : Nat
  userId : String
  title : String
  description : Option String
  startTime : Int
  endTime : Int
  location : Option String
  isRecurring : Bool
  recurrenceRule : Option String
  googleEventId : Option String
  color : String
  createdAt : Int
  updatedAt : Int
deriving DecidableEq

structure Note where
  id : Nat
  userId : String
  title : String
  content : String
  tags : List String
  isPinned : Bool
  photoUrl : Option String
  createdAt : Int
  updatedAt : Int
deriving DecidableEq

structure Transaction where
  id : Nat
  userId : String
  amount : Int
  txType : String
  category : String
  description : Option String
  date : Int
  notes : Option String
  photoUrl : Option String
  createdAt : Int
  updatedAt : Int
deriving DecidableEq

structure Store where
  tasks : List Task
  events : List Event
  notes : List Note
  transactions : List Transaction
deriving DecidableEq

structure ParsedTask where
  title : String
  description : Option String
  dueDate : Option Int
  priority : Option String
  isRecurring : Option Bool
  recurrenceRule : Option String
  photoUrl : Option String
deriving DecidableEq

structure ParsedEvent where
  title : String
  description : Option String
  startTime : Int
  endTime : Int
  location : Option String
  isRecurring : Option Bool
  recurrenceRule : Option String
deriving DecidableEq

structure ParsedTransaction where
  amount : Int
  txType : String
  category : String
  description : Option String
  date : Option Int
  photoUrl : Option String
deriving DecidableEq

structure ParsedNote where
  title : Option String
  content : String
  tags : Option (List String)
  photoUrl : Option String
deriving DecidableEq

/-- x || null for an optional string field: undefined and '' collapse to
null. -/
def orNullStr (x : Option String) : Option String :=
  match x with
  | some s => if s ≠ "" then some s else none
  | none => none

/-- x || y for an optional string with a nonempty default. -/
def orElseStr (x : Option String) (y : String) : String :=
  match x with
  | some s => if s ≠ "" then s else y
  | none => y

/-- x || false for an optional boolean. -/
def orFalse (x : Option Bool) : Bool := x.getD false

/-- x || [] for an optional tag list (an empty array is truthy in JS, so
only undefined falls back). -/
def orNilTags (x : Option (List String)) : List String := x.getD []

/-! ### Calendar arithmetic

JS Date values are instants (integer milliseconds since the Unix epoch).
The civil-date conversions implement the standard proleptic Gregorian
algorithms (days_from_civil / civil_from_days) with floor division, which is
what the ECMAScript date getters specify. -/

/-- Days since 1970-01-01 of a proleptic Gregorian date; the month is
1-based here. -/
def daysFromCivil (y m d : Int) : Int :=
  let yy := y - (if m ≤ 2 then 1 else 0)
  let era := Int.fdiv yy 400
  let yoe := yy - era * 400
  let doy := Int.fdiv (153 * (m + (if m > 2 then (-3) else 9)) + 2) 5 + d - 1
  let doe := yoe * 365 + Int.fdiv yoe 4 - Int.fdiv yoe 100 + doy
  era * 146097 + doe - 719468

/-- Inverse of daysFromCivil: the (year, month, day) of a day count. -/
def civilFromDays (z0 : Int) : Int × Int × Int :=
  let z := z0 + 719468
  let era := Int.fdiv z 146097
  let doe := z - era * 146097
  let yoe :=
    Int.fdiv (doe - Int.fdiv doe 1460 + Int.fdiv doe 36524 - Int.fdiv doe 146096) 365
  let y := yoe + era * 400
  let doy := doe - (365 * yoe + Int.fdiv yoe 4 - Int.fdiv yoe 100)
  let mp := Int.fdiv (5 * doy + 2) 153
  let d := doy - Int.fdiv (153 * mp + 2) 5 + 1
  let m := mp + (if mp < 10 then 3 else (-9))
  (y + (if m ≤ 2 then 1 else 0), m, d)

/-- The local clock reading of an instant: tz is the constant value of
getTimezoneOffset in minutes (UTC minus local time). -/
def localMs (tz t : Int) : Int := t - tz * 60000

def localCivil (tz t : Int) : Int × Int × Int :=
  civilFromDays (Int.fdiv (localMs tz t) 86400000)

/-- Date.prototype.getFullYear. -/
def dateGetFullYear (tz t : Int) : Int := (localCivil tz t).1

/-- Date.prototype.getMonth (0-based month index). -/
def dateGetMonthIx (tz t : Int) : Int := (localCivil tz t).2.1 - 1

/-- Date.prototype.getDate (day of month). -/
def dateGetDate (tz t : Int) : Int := (localCivil tz t).2.2

def dateGetHours (tz t : Int) : Int :=
  Int.fdiv (Int.emod (localMs tz t) 86400000) 3600000

def dateGetMinutes (tz t : Int) : Int :=
  Int.fdiv (Int.emod (localMs tz t) 3600000) 60000

def dateGetSeconds (tz t : Int) : Int :=
  Int.fdiv (Int.emod (localMs tz t) 60000) 1000

def dateGetUTCHours (t : Int) : Int := Int.fdiv (Int.emod t 86400000) 3600000

def dateGetUTCMinutes (t : Int) : Int := Int.fdiv (Int.emod t 3600000) 60000

def dateGetUTCSeconds (t : Int) : Int := Int.fdiv (Int.emod t 60000) 1000

/-- new Date(year, monthIndex, day, hours, minutes, seconds): an instant
built from local clock fields (milliseconds zero). -/
def mkLocalDate (tz y mIx d h mi s : Int) : Int :=
  daysFromCivil y (mIx + 1) d * 86400000 + h * 3600000 + mi * 60000 + s * 1000 +
    tz * 60000

/-- The date normalization in transactions.create (supabase-storage.ts lines
337-361): no supplied date means the capture time; a supplied date whose UTC
hours, minutes and seconds are all zero is taken as date-only and rebuilt
from its local calendar date plus the current local time of day; any other
supplied date is kept unchanged. -/
def transactionDate (tz nowMs : Int) (supplied : Option Int) : Int :=
  match supplied with
  | none => nowMs
  | some p =>
    if dateGetUTCHours p ≠ 0 ∨ dateGetUTCMinutes p ≠ 0 ∨ dateGetUTCSeconds p ≠ 0 then p
    else
      mkLocalDate tz (dateGetFullYear tz p) (dateGetMonthIx tz p) (dateGetDate tz p)
        (dateGetHours tz nowMs) (dateGetMinutes tz nowMs) (dateGetSeconds tz nowMs)

/-! ### SupabaseStorageService create operations

The service is the one bound to the exported storage singleton
(storage.ts: export const storage = new SupabaseStorageService()). Row ids
and timestamps that the database generates are passed in explicitly. -/

namespace SupabaseStorageService

/-- tasks.create (supabase-storage.ts lines 57-77). -/
def tasksCreate (st : Store) (userId : String) (nowMs : Int) (newId : Nat)
    (d : ParsedTask) : Store × Task :=
  let task : Task :=
    { id := newId
      userId := userId
      title := d.title
      description := orNullStr d.description
      dueDate := d.dueDate
      priority := orElseStr d.priority "medium"
      isCompleted := false
      isRecurring := orFalse d.isRecurring
      recurrenceRule := orNullStr d.recurrenceRule
      completedAt := none
      photoUrl := orNullStr d.photoUrl
      createdAt := nowMs
      updatedAt := nowMs }
  ({ st with tasks := st.tasks ++ [task] }, task)

/-- events.create (supabase-storage.ts lines 145-165): the external calendar
id starts null and the color is the fixed default. -/
def eventsCreate (st : Store) (userId : String) (nowMs : Int) (newId : Nat)
    (d : ParsedEvent) : Store × Event :=
  let event : Event :=
    { id := newId
      userId := userId
      title := d.title
      description := orNullStr d.description
      startTime := d.startTime
      endTime := d.endTime
      location := orNullStr d.location
      isRecurring := orFalse d.isRecurring
      recurrenceRule := orNullStr d.recurrenceRule
      googleEventId := none
      color := "#cba6f7"
      createdAt := nowMs
      updatedAt := nowMs }
  ({ st with events := st.events ++ [event] }, event)

/-- events.update restricted to the googleEventId patch, the only update the
capture flow performs; the row's update timestamp is refreshed. -/
def eventsUpdateGoogleId (st : Store) (id : Nat) (gid : String) (nowMs : Int) : Store :=
  { st with
    events := st.events.map (fun e =>
      if e.id = id then { e with googleEventId := some gid, updatedAt := nowMs } else e) }

/-- The bullet string of the entry markup: the source file's bytes between
<div> and the space are the three characters U+00E2 U+20AC U+00A2. -/
def bulletChars : String := "â€¢"

/-- The list-item fragment built for a merge entry (supabase-storage.ts line
228). -/
def entryMarkup (entry : String) : String :=
  "<div>" ++ bulletChars ++ " " ++ escapeHtml entry ++ "</div>"

/-- The merge-target lookup in notes.create (lines 218-225):
from('notes').select().eq('user_id', u).ilike('title', bucket).limit(1) —
the first stored note of the user whose title matches the bucket title as a
case-insensitive LIKE pattern. -/
def findMergeTarget (st : Store) (userId : String) (bucket : String) : Option Note :=
  (st.notes.filter (fun n => n.userId = userId && noteILike bucket n.title)).head?

/-- The appended content built in notes.create (lines 231-237): keep the
prior content when its trim is nonempty, add a <br /> separator unless the
trimmed prior content already ends in one, then the entry fragment. -/
def appendContent (base entry : String) : String :=
  if jsTrim base ≠ "" then
    base ++ (if (jsTrim base).endsWith "<br />" then "" else "<br />") ++ entryMarkup entry
  else entryMarkup entry

/-- The unconditional insert at the end of notes.create (lines 256-269). -/
def insertNote (st : Store) (userId : String) (nowMs : Int) (newId : Nat)
    (nd : ParsedNote) : Store × Note :=
  let note : Note :=
    { id := newId
      userId := userId
      title := orElseStr nd.title (nd.content.take 50)
      content := nd.content
      tags := orNilTags nd.tags
      isPinned := false
      photoUrl := orNullStr nd.photoUrl
      createdAt := nowMs
      updatedAt := nowMs }
  ({ st with notes := st.notes ++ [note] }, note)

/-- notes.create (supabase-storage.ts lines 214-270): on a bucket match with
an existing target, append to that note's content and refresh its update
timestamp; on a bucket match without a target, insert a starter note titled
by the bucket; otherwise insert the note as given. -/
def notesCreate (st : Store) (userId : String) (nowMs : Int) (newId : Nat)
    (nd : ParsedNote) : Store × Note :=
  match extractMergeInfo nd.title nd.content with
  | some mi =>
    (match findMergeTarget st userId mi.bucketTitle with
     | some existing =>
       let newContent := appendContent existing.content mi.entry
       ({ st with
          notes := st.notes.map (fun n =>
            if n.id = existing.id then
              { n with content := newContent, updatedAt := nowMs }
            else n) },
        { existing with content := newContent, updatedAt := nowMs })
     | none =>
       insertNote st userId nowMs newId
         { nd with title := some mi.bucketTitle, content := entryMarkup mi.entry })
  | none => insertNote st userId nowMs newId nd

/-- transactions.create (supabase-storage.ts lines 334-379). -/
def transactionsCreate (st : Store) (userId : String) (tz nowMs : Int) (newId : Nat)
    (d : ParsedTransaction) : Store × Transaction :=
  let tx : Transaction :=
    { id := newId
      userId := userId
      amount := d.amount
      txType := d.txType
      category := d.category
      description := orNullStr d.description
      date := transactionDate tz nowMs d.date
      notes := none
      photoUrl := orNullStr d.photoUrl
      createdAt := nowMs
      updatedAt := nowMs }
  ({ st with transactions := st.transactions ++ [tx] }, tx)

end SupabaseStorageService

/-! ### JavaScript values and JSON.parse

parseCapture feeds the cleaned response text to JSON.parse and then walks
the result with property reads and assignments. JsValue models the values
JSON.parse can produce, plus datev for the Date objects the conversion step
writes back (new Date(x) is kept symbolically as datev x). Numbers keep
their raw lexeme; only their truthiness is ever consumed. -/

inductive JsValue where
  | nullv : JsValue
  | boolv (b : Bool) : JsValue
  | numv (raw : String) : JsValue
  | strv (s : String) : JsValue
  | arrv (elems : List JsValue) : JsValue
  | objv (fields : List (String × JsValue)) : JsValue
  | datev (arg : Option JsValue) : JsValue

/-- JSON whitespace (insignificant between tokens). -/
def jsonWs (c : Char) : Bool := c = ' ' || c = '\t' || c = '\n' || c = '\r'

def skipWs (s : List Char) : List Char := s.dropWhile jsonWs

def isHexDigit (c : Char) : Bool :=
  c.isDigit || ('a' ≤ c && c ≤ 'f') || ('A' ≤ c && c ≤ 'F')

def hexVal (c : Char) : Nat :=
  if c.isDigit then c.toNat - 48
  else if 'a' ≤ c && c ≤ 'f' then c.toNat - 87
  else c.toNat - 55

def parseHex4 : List Char → Option (Nat × List Char)
  | a :: b :: c :: d :: rest =>
    if isHexDigit a && isHexDigit b && isHexDigit c && isHexDigit d then
      some ((((hexVal a * 16 + hexVal b) * 16 + hexVal c) * 16 + hexVal d), rest)
    else none
  | _ => none

/-- The short escapes a JSON string may contain. -/
def escChar (c : Char) : Option Char :=
  if c = '"' then some '"'
  else if c = '\\' then some '\\'
  else if c = '/' then some '/'
  else if c = 'b' then some (Char.ofNat 8)
  else if c = 'f' then some (Char.ofNat 12)
  else if c = 'n' then some '\n'
  else if c = 'r' then some '\r'
  else if c = 't' then some '\t'
  else none

/-- The body of a JSON string after the opening quote; yields the decoded
content and the remainder after the closing quote. \uXXXX escapes are
combined with Char.ofNat (a code point that is not a Lean scalar value
collapses to NUL; no claim depends on surrogate handling). Unescaped
control characters are invalid JSON. -/
def parseStrBodyF : Nat → List Char → Option (List Char × List Char)
  | 0, _ => none
  | _ + 1, [] => none
  | fuel + 1, c :: rest =>
    if c = '"' then some ([], rest)
    else if c = '\\' then
      match rest with
      | [] => none
      | e :: rest2 =>
        if e = 'u' then
          match parseHex4 rest2 with
          | some g =>
            (match parseStrBodyF fuel g.2 with
             | some r => some (Char.ofNat g.1 :: r.1, r.2)
             | none => none)
          | none => none
        else
          match escChar e with
          | some ch =>
            (match parseStrBodyF fuel rest2 with
             | some r => some (ch :: r.1, r.2)
             | none => none)
          | none => none
    else if c.toNat < 32 then none
    else
      match parseStrBodyF fuel rest with
      | some r => some (c :: r.1, r.2)
      | none => none

def parseStrBody (s : List Char) : Option (List Char × List Char) :=
  parseStrBodyF (s.length + 1) s

/-- Fraction part of a JSON number lexeme (empty when absent; a dot not
followed by digits makes the whole number token invalid). -/
def lexFrac : List Char → Option (List Char × List Char)
  | '.' :: r =>
    let ds := r.takeWhile Char.isDigit
    if ds.isEmpty then none else some ('.' :: ds, r.dropWhile Char.isDigit)
  | s => some ([], s)

/-- Exponent part of a JSON number lexeme. -/
def lexExp : List Char → Option (List Char × List Char)
  | c :: r =>
    if c = 'e' || c = 'E' then
      let sg : List Char × List Char :=
        match r with
        | '+' :: rr => (['+'], rr)
        | '-' :: rr => (['-'], rr)
        | _ => ([], r)
      let ds := sg.2.takeWhile Char.isDigit
      if ds.isEmpty then none
      else some (c :: (sg.1 ++ ds), sg.2.dropWhile Char.isDigit)
    else some ([], c :: r)
  | [] => some ([], [])

/-- Lex a JSON number at the head: -? int frac? exp?, no leading zeros. -/
def lexNumber (s : List Char) : Option (List Char × List Char) :=
  let sg : List Char × List Char :=
    match s with
    | '-' :: r => (['-'], r)
    | _ => ([], s)
  match sg.2 with
  | [] => none
  | c :: _ =>
    if c.isDigit then
      let intPart := sg.2.takeWhile Char.isDigit
      let s2 := sg.2.dropWhile Char.isDigit
      if c = '0' && intPart.length > 1 then none
      else
        match lexFrac s2 with
        | some fp =>
          (match lexExp fp.2 with
           | some ep => some (sg.1 ++ intPart ++ fp.1 ++ ep.1, ep.2)
           | none => none)
        | none => none
    else none

/-- Whether a JSON number lexeme denotes zero (every mantissa digit is 0);
this decides the JS truthiness of the number. -/
def numIsZero (raw : String) : Bool :=
  ((raw.data.takeWhile (fun c => c ≠ 'e' && c ≠ 'E')).filter Char.isDigit).all
    (fun c => c = '0')

/-- Property insertion with JS object semantics: an existing key keeps its
position and takes the new value, a new key is appended. JSON.parse handles
duplicate keys the same way, so parsed objects never carry duplicates. -/
def insertField (fs : List (String × JsValue)) (k : String) (v : JsValue) :
    List (String × JsValue) :=
  match fs with
  | [] => [(k, v)]
  | f :: rest => if f.1 = k then (k, v) :: rest else f :: insertField rest k v

def lookupField (fs : List (String × JsValue)) (k : String) : Option JsValue :=
  match fs with
  | [] => none
  | f :: rest => if f.1 = k then some f.2 else lookupField rest k

mutual

/-- Recursive-descent JSON value parser (fuel bounds the call depth;
jsonParseTop supplies enough for any input). Leading whitespace is
skipped; the remainder after the value is returned. -/
def parseVal : Nat → List Char → Option (JsValue × List Char)
  | 0, _ => none
  | fuel + 1, s =>
    match skipWs s with
    | [] => none
    | c :: rest =>
      if c = '\x7b' then
        match skipWs rest with
        | '\x7d' :: r2 => some (JsValue.objv [], r2)
        | r2 => parseMembers fuel r2 []
      else if c = '[' then
        match skipWs rest with
        | ']' :: r2 => some (JsValue.arrv [], r2)
        | r2 => parseElems fuel r2 []
      else if c = '"' then
        match parseStrBody rest with
        | some r => some (JsValue.strv (String.mk r.1), r.2)
        | none => none
      else if "null".data.isPrefixOf (c :: rest) then
        some (JsValue.nullv, (c :: rest).drop 4)
      else if "true".data.isPrefixOf (c :: rest) then
        some (JsValue.boolv true, (c :: rest).drop 4)
      else if "false".data.isPrefixOf (c :: rest) then
        some (JsValue.boolv false, (c :: rest).drop 5)
      else
        match lexNumber (c :: rest) with
        | some r => some (JsValue.numv (String.mk r.1), r.2)
        | none => none

/-- Object members after the opening brace (first member expected). -/
def parseMembers : Nat → List Char → List (String × JsValue) →
    Option (JsValue × List Char)
  | 0, _, _ => none
  | fuel + 1, s, acc =>
    match s with
    | '"' :: rest =>
      (match parseStrBody rest with
       | some kr =>
         (match skipWs kr.2 with
          | ':' :: r2 =>
            (match parseVal fuel r2 with
             | some vr =>
               let acc1 := insertField acc (String.mk kr.1) vr.1
               (match skipWs vr.2 with
                | ',' :: r3 => parseMembers fuel (skipWs r3) acc1
                | '\x7d' :: r3 => some (JsValue.objv acc1, r3)
                | _ => none)
             | none => none)
          | _ => none)
       | none => none)
    | _ => none

/-- Array elements after the opening bracket (first element expected). -/
def parseElems : Nat → List Char → List JsValue → Option (JsValue × List Char)
  | 0, _, _ => none
  | fuel + 1, s, acc =>
    match parseVal fuel s with
    | some vr =>
      (match skipWs vr.2 with
       | ',' :: r2 => parseElems fuel r2 (vr.1 :: acc)
       | ']' :: r2 => some (JsValue.arrv (vr.1 :: acc).reverse, r2)
       | _ => none)
    | none => none

end

/-- JSON.parse: a single value with only whitespace around it. -/
def jsonParseTop (s : String) : Option JsValue :=
  match parseVal (2 * s.length + 4) s.data with
  | some vr => if (skipWs vr.2).isEmpty then some vr.1 else none
  | none => none

/-! ### Response cleanup and the date-conversion step of parseCapture -/

/-- One global replace of a literal pattern plus an optional following
newline with the empty string — the shape of the fence-stripping regexes
/```json\n?/g and /```\n?/g (matches are found left to right and scanning
resumes after each match). -/
def stripFence (pat : List Char) : Nat → List Char → List Char
  | 0, s => s
  | fuel + 1, s =>
    if !pat.isEmpty && pat.isPrefixOf s then
      match s.drop pat.length with
      | '\n' :: r => stripFence pat fuel r
      | r => stripFence pat fuel r
    else
      match s with
      | [] => []
      | c :: cs => c :: stripFence pat fuel cs

def fenceJson : List Char := "```json".data

def fenceTicks : List Char := "```".data

/-- The response cleanup in parseCapture (gemini.ts lines 92-95):
response.text().trim(), strip ```json fences, strip ``` fences, trim. -/
def cleanResponse (s : String) : String :=
  let t0 := jsTrimList s.data
  let t1 := stripFence fenceJson (t0.length + 1) t0
  let t2 := stripFence fenceTicks (t1.length + 1) t1
  String.mk (jsTrimList t2)

/-- Reading property k of a JS value: a null receiver throws (modelled as
Except.error, the TypeError the surrounding try catches); property access on
primitives boxes and yields undefined; the receiver being undefined (none)
also throws. -/
def jsGet (v : Option JsValue) (k : String) : Except Unit (Option JsValue) :=
  match v with
  | none => Except.error ()
  | some JsValue.nullv => Except.error ()
  | some (JsValue.objv fs) => Except.ok (lookupField fs k)
  | some _ => Except.ok none

/-- Assigning property k of a JS value in strict mode: undefined, null and
primitive receivers throw TypeError; objects take the field. A named
property added to an array is dropped from the model (the assignment does
not throw, and nothing later reads it). -/
def jsSetE (v : Option JsValue) (k : String) (x : JsValue) : Except Unit JsValue :=
  match v with
  | some (JsValue.objv fs) => Except.ok (JsValue.objv (insertField fs k x))
  | some (JsValue.arrv xs) => Except.ok (JsValue.arrv xs)
  | _ => Except.error ()

/-- JS truthiness of a possibly-undefined value. -/
def jsTruthy (v : Option JsValue) : Bool :=
  match v with
  | none => false
  | some JsValue.nullv => false
  | some (JsValue.boolv b) => b
  | some (JsValue.numv raw) => !(numIsZero raw)
  | some (JsValue.strv s) => s ≠ ""
  | some _ => true

/-- The strict comparison parsed.type === '<tag>': true exactly when the
value is that string. -/
def isTag (v : Option JsValue) (tag : String) : Bool :=
  match v with
  | some (JsValue.strv s) => s = tag
  | _ => false

/-- Writing the mutated data object back into the parsed value (in JS the
mutation happens through the shared reference; here the field is replaced).
The conversion branches only run when the parsed value is an object, so the
fallthrough case is unreachable there. -/
def setData (parsed d : JsValue) : JsValue :=
  match parsed with
  | JsValue.objv fs => JsValue.objv (insertField fs "data" d)
  | other => other

/-- The post-parse date conversion in parseCapture (gemini.ts lines 99-114),
with JS strict-mode property semantics; Except.error models a thrown
TypeError, which the surrounding try turns into the classification error.
new Date(x) is modelled as the tagged value JsValue.datev x. -/
def convertDates (parsed : JsValue) : Except Unit JsValue := do
  let ty ← jsGet (some parsed) "type"
  if isTag ty "task" then do
    let d ← jsGet (some parsed) "data"
    let dd ← jsGet d "dueDate"
    if jsTruthy dd then do
      let d2 ← jsSetE d "dueDate" (JsValue.datev dd)
      pure (setData parsed d2)
    else pure parsed
  else if isTag ty "event" then do
    let d ← jsGet (some parsed) "data"
    let stv ← jsGet d "startTime"
    let d2 ← jsSetE d "startTime" (JsValue.datev stv)
    let env ← jsGet (some d2) "endTime"
    let d3 ← jsSetE (some d2) "endTime" (JsValue.datev env)
    pure (setData parsed d3)
  else if isTag ty "expense" || isTag ty "income" then do
    let d ← jsGet (some parsed) "data"
    let dt ← jsGet d "date"
    if jsTruthy dt then do
      let d2 ← jsSetE d "date" (JsValue.datev dt)
      pure (setData parsed d2)
    else pure parsed
  else pure parsed

/-- parseCapture (gemini.ts lines 7-121). The external call either fails or
yields the response text; every exception inside the try — the call failing,
JSON.parse throwing, or a TypeError in the date conversion — becomes the
single classification error ('Failed to parse input. Please try
rephrasing.'), modelled as Except.error. Note there is no check of the
parsed discriminant: a value whose type is none of the five kinds flows
through unchanged. -/
def parseCapture (call : Except Unit String) : Except Unit JsValue :=
  match call with
  | Except.error _ => Except.error ()
  | Except.ok text =>
    match jsonParseTop (cleanResponse text) with
    | none => Except.error ()
    | some parsed => convertDates parsed

/-- The five discriminants the capture pipeline knows. -/
def knownKinds : List String := ["task", "event", "expense", "income", "note"]

/-! ### The capture orchestration (CaptureBox.handleConfirm) and the
external calendar bridge (google-calendar.ts) -/

/-- The ambient state of one capture call: the authentication state of the
calendar bridge and the outcomes the external services would produce if
reached, plus the database-generated identity and timestamps. -/
structure CaptureEnv where
  accessToken : Option String
  pushResult : Except String (Option String)
  uploadResult : Except Unit String
  userId : String
  nowMs : Int
  tz : Int
  freshId : Nat

/-- googleCalendarRequest (google-calendar.ts lines 46-72): without an
access token in the session it throws 'Not authenticated with Google';
with one, the network outcome decides, and the response body's optional id
field is the result the callers read. -/
def googleCalendarRequest (env : CaptureEnv) : Except String (Option String) :=
  match env.accessToken with
  | none => Except.error "Not authenticated with Google"
  | some _ => env.pushResult

/-- pushToGoogleCalendar (google-calendar.ts lines 135-176): chooses PUT or
POST by the event's googleEventId and rethrows any failure. Both branches
perform googleCalendarRequest and return response.id, so they coincide in
this model. -/
def pushToGoogleCalendar (env : CaptureEnv) (_e : Event) : Except String (Option String) :=
  googleCalendarRequest env

/-- The classified capture as consumed by handleConfirm. The other case
carries a discriminant outside the five known kinds: the switch in
handleConfirm then matches no case and nothing is persisted. -/
inductive CaptureData where
  | task (d : ParsedTask) : CaptureData
  | event (d : ParsedEvent) : CaptureData
  | expense (d : ParsedTransaction) : CaptureData
  | income (d : ParsedTransaction) : CaptureData
  | note (d : ParsedNote) : CaptureData
  | other (tag : String) : CaptureData
deriving DecidableEq

/-- captureData.type. -/
def captureTypeTag : CaptureData → String
  | CaptureData.task _ => "task"
  | CaptureData.event _ => "event"
  | CaptureData.expense _ => "expense"
  | CaptureData.income _ => "income"
  | CaptureData.note _ => "note"
  | CaptureData.other tag => tag

/-- ['task', 'note', 'expense', 'income'].includes(captureData.type). -/
def supportsPhotoKind (cd : CaptureData) : Bool :=
  captureTypeTag cd = "task" || captureTypeTag cd = "note" ||
    captureTypeTag cd = "expense" || captureTypeTag cd = "income"

def uploadFailedNotice : String :=
  "Failed to upload photo. The entry was saved without the image."

def photoUnsupportedNotice : String :=
  "Photos are currently only supported for tasks, notes, and finance entries."

/-- What one handleConfirm run leaves behind: the store, the notices shown,
and whether the call completed without throwing. Storage operations are
modelled as total, so every modelled run completes (ok is the negation of
the rethrow in the outer catch, which only a storage failure reaches). -/
structure ConfirmOutcome where
  store : Store
  notices : List String
  ok : Bool
deriving DecidableEq

open SupabaseStorageService in
/-- handleConfirm (CaptureBox.tsx lines 162-233): the optional photo upload
with failure tolerance, the dispatch on the classified kind to the matching
create operation, and — for events — the calendar push whose failure is
caught and ignored. photoFile says whether a photo is attached; the computed
photo URL overrides the classifier data's photoUrl field (photoUrl ||
undefined). -/
def handleConfirm (env : CaptureEnv) (st : Store) (photoFile : Bool)
    (cd : CaptureData) : ConfirmOutcome :=
  let up : Option String × List String :=
    if photoFile && supportsPhotoKind cd then
      match env.uploadResult with
      | Except.ok url => (some url, [])
      | Except.error _ => (none, [uploadFailedNotice])
    else if photoFile && !(supportsPhotoKind cd) then (none, [photoUnsupportedNotice])
    else (none, [])
  match cd with
  | CaptureData.task d =>
    { store := (tasksCreate st env.userId env.nowMs env.freshId
        { d with photoUrl := up.1 }).1
      notices := up.2
      ok := true }
  | CaptureData.event d =>
    let r := eventsCreate st env.userId env.nowMs env.freshId d
    let st2 :=
      match pushToGoogleCalendar env r.2 with
      | Except.error _ => r.1
      | Except.ok (some g) =>
        if g ≠ "" then eventsUpdateGoogleId r.1 r.2.id g env.nowMs else r.1
      | Except.ok none => r.1
    { store := st2, notices := up.2, ok := true }
  | CaptureData.expense d =>
    { store := (transactionsCreate st env.userId env.tz env.nowMs env.freshId
        { d with txType := "expense", photoUrl := up.1 }).1
      notices := up.2
      ok := true }
  | CaptureData.income d =>
    { store := (transactionsCreate st env.userId env.tz env.nowMs env.freshId
        { d with txType := "income", photoUrl := up.1 }).1
      notices := up.2
      ok := true }
  | CaptureData.note d =>
    { store := (notesCreate st env.userId env.nowMs env.freshId
        { d with photoUrl := up.1 }).1
      notices := up.2
      ok := true }
  | CaptureData.other _ => { store := st, notices := up.2, ok := true }

/-! ### Shared fixtures and helper lemmas -/

def emptyStore : Store := { tasks := [], events := [], notes := [], transactions := [] }

theorem head_of_filter_spec {α : Type} (p : α → Bool) (l : List α) (x : α)
    (h : (l.filter p).head? = some x) : x ∈ l ∧ p x = true := by
  induction l with
  | nil => simp [List.filter] at h
  | cons a l ih =>
    by_cases ha : p a
    · simp only [List.filter_cons, ha, if_pos, List.head?_cons, Option.some.injEq] at h
      subst h
      exact ⟨List.mem_cons_self a l, ha⟩
    · simp only [List.filter_cons, ha, if_neg, Bool.false_eq_true, reduceIte] at h
      rcases ih h with ⟨hm, hp⟩
      exact ⟨List.mem_cons_of_mem a hm, hp⟩

theorem head_of_filter_isSome {α : Type} (p : α → Bool) (l : List α) :
    ((l.filter p).head?).isSome = true ↔ ∃ x ∈ l, p x = true := by
  induction l with
  | nil => simp
  | cons a l ih =>
    by_cases ha : p a
    · simp [List.filter_cons, ha]
    · simp [List.filter_cons, ha, ih]

theorem likeMatchF_nil_pat (f : Nat) (t : List Char) :
    likeMatchF (f + 1) [] t = t.isEmpty := rfl

theorem likeMatchF_cons_pat (f : Nat) (c : Char) (p1 t : List Char) :
    likeMatchF (f + 1) (c :: p1) t =
      (if c = '%' then
        likeMatchF f p1 t ||
          (match t with
           | [] => false
           | _ :: t1 => likeMatchF f (c :: p1) t1)
      else if c = '_' then
        (match t with
         | [] => false
         | _ :: t1 => likeMatchF f p1 t1)
      else if c = '\\' then
        (match p1 with
         | [] => false
         | c2 :: p2 =>
           match t with
           | [] => false
           | x :: t1 => x = c2 && likeMatchF f p2 t1)
      else
        (match t with
         | [] => false
         | x :: t1 => x = c && likeMatchF f p1 t1)) := rfl

theorem likeMatchF_exact (f : Nat) (p t : List Char)
    (hf : p.length + t.length < f)
    (hp : ∀ c ∈ p, c ≠ '%' ∧ c ≠ '_' ∧ c ≠ '\\') :
    (likeMatchF f p t = true ↔ p = t) := by
  induction f generalizing p t with
  | zero => omega
  | succ f ih =>
    cases p with
    | nil =>
      rw [likeMatchF_nil_pat]
      cases t <;> simp
    | cons c p1 =>
      have hc := hp c (List.mem_cons_self c p1)
      rw [likeMatchF_cons_pat, if_neg hc.1, if_neg hc.2.1, if_neg hc.2.2]
      cases t with
      | nil => simp
      | cons x t1 =>
        have hrec := ih p1 t1 (by simp at hf ⊢; omega)
          (fun c2 hcm => hp c2 (List.mem_cons_of_mem _ hcm))
        simp only [Bool.and_eq_true, decide_eq_true_eq, List.cons.injEq, hrec]
        constructor
        · rintro ⟨h1, h2⟩; exact ⟨h1.symm, h2⟩
        · rintro ⟨h1, h2⟩; exact ⟨h1.symm, h2⟩

theorem likeMatch_exact (p t : List Char)
    (hp : ∀ c ∈ p, c ≠ '%' ∧ c ≠ '_' ∧ c ≠ '\\') :
    (likeMatch p t = true ↔ p = t) :=
  likeMatchF_exact (p.length + t.length + 1) p t (by omega) hp

theorem extractMergeInfo_trims (title : Option String) (content : String)
    (mi : MergeInfo) (h : extractMergeInfo title content = some mi) :
    mi.bucketTitle ≠ "" ∧ mi.entry ≠ "" := by
  rcases hm : regexMergeMatch (jsTrimList (mergeSource title content).data) with _ | g
  · simp [extractMergeInfo, hm] at h
  · simp only [extractMergeInfo, hm] at h
    by_cases he : ((jsTrimList g.1).isEmpty || (jsTrimList g.2).isEmpty) = true
    · simp [he] at h
    · simp only [he, Bool.false_eq_true, reduceIte, Option.some.injEq] at h
      subst h
      simp only [Bool.or_eq_true, List.isEmpty_iff, not_or] at he
      constructor
      · intro hb
        exact he.1 (by simpa using congrArg String.data hb)
      · intro hb
        exact he.2 (by simpa using congrArg String.data hb)

/-! ### C10 -/

/-- C10 counterexample: the supplied instant 1970-01-01T00:00:00.500Z has a
non-midnight UTC time-of-day (it is 500 ms past midnight), yet the code does
not store it unchanged: only UTC hours, minutes and seconds are consulted,
so the date is treated as date-only and rebuilt from its calendar date plus
the capture time's clock (here 10:30:45 with timezone offset 0). -/
theorem c10_milliseconds_counterexample :
    transactionDate 0 37845000 (some 500) = 37845000 ∧
    Int.emod 500 86400000 ≠ 0 ∧
    transactionDate 0 37845000 (some 500) ≠ 500 := by
  refine ⟨by decide, by decide, by decide⟩

/-- C10 (amended): transactions.create stores the capture time when no date
is supplied; a supplied date is kept unchanged when any of its UTC hours,
minutes or seconds is nonzero (milliseconds alone do not count as a time
component); otherwise the stored date is rebuilt from the supplied instant's
local calendar date and the capture time's local hours, minutes and seconds
(milliseconds zero). The last conjunct ties the stored transaction row to
this normalization. -/
theorem c10_transaction_date_normalization (tz nowMs d : Int) :
    transactionDate tz nowMs none = nowMs ∧
    (¬(dateGetUTCHours d = 0 ∧ dateGetUTCMinutes d = 0 ∧ dateGetUTCSeconds d = 0) →
      transactionDate tz nowMs (some d) = d) ∧
    ((dateGetUTCHours d = 0 ∧ dateGetUTCMinutes d = 0 ∧ dateGetUTCSeconds d = 0) →
      transactionDate tz nowMs (some d) =
        mkLocalDate tz (dateGetFullYear tz d) (dateGetMonthIx tz d) (dateGetDate tz d)
          (dateGetHours tz nowMs) (dateGetMinutes tz nowMs) (dateGetSeconds tz nowMs)) ∧
    (∀ (st : Store) (u : String) (newId : Nat) (td : ParsedTransaction),
      ((SupabaseStorageService.transactionsCreate st u tz nowMs newId td).2).date =
        transactionDate tz nowMs td.date) := by
  refine ⟨rfl, ?_, ?_, fun _ _ _ _ => rfl⟩
  · intro h
    have hcond : dateGetUTCHours d ≠ 0 ∨ dateGetUTCMinutes d ≠ 0 ∨ dateGetUTCSeconds d ≠ 0 := by
      tauto
    simp only [transactionDate]
    rw [if_pos hcond]
  · rintro ⟨h1, h2, h3⟩
    have hcond : ¬(dateGetUTCHours d ≠ 0 ∨ dateGetUTCMinutes d ≠ 0 ∨ dateGetUTCSeconds d ≠ 0) := by
      simp [h1, h2, h3]
    simp only [transactionDate]
    rw [if_neg hcond]

/-- Witness for C10's theorem: 1970-01-01T01:00:00Z has nonzero UTC hours
and is stored unchanged. -/
theorem c10_transaction_date_normalization_witness :
    transactionDate 0 37845000 (some 3600000) = 3600000 :=
  (c10_transaction_date_normalization 0 37845000 3600000).2.1 (by decide)

/-! ### C7 -/

/-- C7: the merge decision is driven by the single anchored regex match on
the trimmed title-or-content: the decision is CreateNew (extractMergeInfo
returns none, leaving the note data unchanged) exactly when the regex does
not match or when either capture group is empty after trimming; otherwise
the bucket and entry are the trimmed groups. -/
theorem c7_merge_decision (title : Option String) (content : String) :
    (extractMergeInfo title content = none ↔
      regexMergeMatch (jsTrimList (mergeSource title content).data) = none ∨
      ∃ g, regexMergeMatch (jsTrimList (mergeSource title content).data) = some g ∧
        (jsTrimList g.1 = [] ∨ jsTrimList g.2 = [])) ∧
    (∀ g, regexMergeMatch (jsTrimList (mergeSource title content).data) = some g →
      jsTrimList g.1 ≠ [] → jsTrimList g.2 ≠ [] →
      extractMergeInfo title content =
        some ⟨String.mk (jsTrimList g.1), String.mk (jsTrimList g.2)⟩) := by
  constructor
  · rcases hm : regexMergeMatch (jsTrimList (mergeSource title content).data) with _ | g
    · simp [extractMergeInfo, hm]
    · simp only [extractMergeInfo, hm]
      by_cases he : (jsTrimList g.1).isEmpty || (jsTrimList g.2).isEmpty
      · simp only [he, if_pos, true_iff]
        right
        refine ⟨g, rfl, ?_⟩
        simpa [List.isEmpty_iff] using he
      · simp only [he, Bool.false_eq_true, reduceIte, Option.some.injEq]
        simp only [Bool.or_eq_true, List.isEmpty_iff, not_or] at he
        constructor
        · intro h; exact absurd h (by simp)
        · rintro (h | ⟨g2, hg2, hemp⟩)
          · exact absurd h (by simp)
          · subst hg2
            rcases hemp with h | h
            · exact absurd h he.1
            · exact absurd h he.2
  · intro g hg h1 h2
    simp only [extractMergeInfo, hg]
    rw [if_neg (by simp [List.isEmpty_iff, h1, h2])]

/-- Witness for C7's theorem at a concrete capture. -/
theorem c7_merge_decision_witness :
    extractMergeInfo none "Groceries: milk" = some ⟨"Groceries", "milk"⟩ :=
  (c7_merge_decision none "Groceries: milk").2 ("Groceries".data, "milk".data)
    (by decide) (by decide) (by decide)

/-! ### C5 -/

def noteToDo : Note :=
  { id := 7, userId := "u1", title := "To do", content := "x", tags := [],
    isPinned := false, photoUrl := none, createdAt := 0, updatedAt := 0 }

def storeToDo : Store :=
  { tasks := [], events := [], notes := [noteToDo], transactions := [] }

/-- C5 counterexample: the note capture "To_do: milk" extracts the bucket
title "To_do"; the ILIKE lookup selects the stored note titled "To do"
because _ is a single-character wildcard in the pattern, although the two
titles are not case-insensitively equal; the capture appends to that note
instead of creating a new one. -/
theorem c5_wildcard_counterexample :
    extractMergeInfo none "To_do: milk" = some ⟨"To_do", "milk"⟩ ∧
    SupabaseStorageService.findMergeTarget storeToDo "u1" "To_do" = some noteToDo ∧
    lowerStr "To do" ≠ lowerStr "To_do" ∧
    ((SupabaseStorageService.notesCreate storeToDo "u1" 5 9
        { title := none, content := "To_do: milk", tags := none,
          photoUrl := none }).1).notes.length = 1 := by
  refine ⟨by decide, by decide, by decide, by decide⟩

/-- C5 (amended): the merge-target lookup treats the extracted bucket title
as a case-insensitive SQL LIKE pattern (ilike + limit 1) and selects the
first stored note of the user whose title matches it; for bucket titles
containing no %, _ or backslash this coincides with case-insensitive exact
equality of titles; when no note matches, a new note is created with the
bucket as its title and the rendered entry as its content. -/
theorem c5_merge_lookup_ilike (st : Store) (u b : String)
    (hb : ∀ c ∈ (lowerStr b).data, c ≠ '%' ∧ c ≠ '_' ∧ c ≠ '\\') :
    ((SupabaseStorageService.findMergeTarget st u b).isSome = true ↔
      ∃ n ∈ st.notes, n.userId = u ∧ lowerStr n.title = lowerStr b) ∧
    (∀ n, SupabaseStorageService.findMergeTarget st u b = some n →
      n ∈ st.notes ∧ n.userId = u ∧ lowerStr n.title = lowerStr b) ∧
    (∀ (nowMs : Int) (newId : Nat) (nd : ParsedNote) (mi : MergeInfo),
      extractMergeInfo nd.title nd.content = some mi →
      SupabaseStorageService.findMergeTarget st u mi.bucketTitle = none →
      ((SupabaseStorageService.notesCreate st u nowMs newId nd).1).notes =
        st.notes ++
          [((SupabaseStorageService.insertNote st u nowMs newId
              { nd with title := some mi.bucketTitle,
                        content := SupabaseStorageService.entryMarkup mi.entry }).2)]) := by
  have hlike : ∀ t : String, (noteILike b t = true ↔ lowerStr t = lowerStr b) := by
    intro t
    unfold noteILike
    rw [likeMatch_exact _ _ hb]
    constructor
    · intro h
      exact (String.ext h).symm
    · intro h
      exact congrArg String.data h.symm
  refine ⟨?_, ?_, ?_⟩
  · unfold SupabaseStorageService.findMergeTarget
    rw [head_of_filter_isSome]
    constructor
    · rintro ⟨n, hn, hpred⟩
      simp only [Bool.and_eq_true, decide_eq_true_eq] at hpred
      exact ⟨n, hn, hpred.1, (hlike n.title).mp hpred.2⟩
    · rintro ⟨n, hn, hu, ht⟩
      refine ⟨n, hn, ?_⟩
      simp only [Bool.and_eq_true, decide_eq_true_eq]
      exact ⟨hu, (hlike n.title).mpr ht⟩
  · intro n hn
    have := head_of_filter_spec _ _ _ hn
    rcases this with ⟨hm, hpred⟩
    simp only [Bool.and_eq_true, decide_eq_true_eq] at hpred
    exact ⟨hm, hpred.1, (hlike n.title).mp hpred.2⟩
  · intro nowMs newId nd mi hmi htgt
    simp [SupabaseStorageService.notesCreate, hmi, htgt,
      SupabaseStorageService.insertNote]

/-- Witness for C5's theorem: an exact-title lookup in the one-note store. -/
theorem c5_merge_lookup_ilike_witness :
    (SupabaseStorageService.findMergeTarget storeToDo "u1" "to DO").isSome = true := by
  rw [(c5_merge_lookup_ilike storeToDo "u1" "to DO" (by decide)).1]
  exact ⟨noteToDo, by decide, by decide, by decide⟩

/-! ### C6 -/

def noteBlankContent : Note :=
  { id := 3, userId := "u1", title := "Groceries", content := " ", tags := [],
    isPinned := false, photoUrl := none, createdAt := 0, updatedAt := 0 }

def storeBlankContent : Store :=
  { tasks := [], events := [], notes := [noteBlankContent], transactions := [] }

/-- C6 counterexample: appending "milk" to a bucket note whose prior
content is the single space " " replaces the content with the bare entry
fragment; the prior content is not a prefix of the new content. -/
theorem c6_whitespace_counterexample :
    ((SupabaseStorageService.notesCreate storeBlankContent "u1" 4 9
        { title := none, content := "Groceries: milk", tags := none,
          photoUrl := none }).2).content = "<div>â€¢ milk</div>" ∧
    List.isPrefixOf (" ".data) ("<div>â€¢ milk</div>".data) = false := by
  refine ⟨by decide, by decide⟩

/-- C6 (amended): when a capture appends to an existing bucket note whose
trimmed prior content is nonempty, the new content keeps the entire prior
content as a prefix, inserts a <br /> separator only if the trimmed prior
content does not already end in one, and appends the HTML-escaped entry
wrapped in the list-item fragment; when the prior content is empty or
whitespace-only, the new content is the bare entry fragment. -/
theorem c6_append_preserves_content (st : Store) (u : String) (nowMs : Int)
    (newId : Nat) (nd : ParsedNote) (mi : MergeInfo) (n : Note)
    (hmi : extractMergeInfo nd.title nd.content = some mi)
    (htgt : SupabaseStorageService.findMergeTarget st u mi.bucketTitle = some n) :
    ((SupabaseStorageService.notesCreate st u nowMs newId nd).2).content =
      SupabaseStorageService.appendContent n.content mi.entry ∧
    (jsTrim n.content ≠ "" →
      (∃ rest, SupabaseStorageService.appendContent n.content mi.entry =
        n.content ++ rest) ∧
      SupabaseStorageService.appendContent n.content mi.entry =
        n.content ++
          ((if (jsTrim n.content).endsWith "<br />" then "" else "<br />") ++
            SupabaseStorageService.entryMarkup mi.entry)) ∧
    (jsTrim n.content = "" →
      SupabaseStorageService.appendContent n.content mi.entry =
        SupabaseStorageService.entryMarkup mi.entry) ∧
    SupabaseStorageService.entryMarkup mi.entry =
      "<div>" ++ SupabaseStorageService.bulletChars ++ " " ++ escapeHtml mi.entry ++
        "</div>" := by
  refine ⟨?_, ?_, ?_, rfl⟩
  · simp [SupabaseStorageService.notesCreate, hmi, htgt]
  · intro h
    unfold SupabaseStorageService.appendContent
    rw [if_pos h]
    exact ⟨⟨_, by rw [String.append_assoc]⟩, by rw [String.append_assoc]⟩
  · intro h
    unfold SupabaseStorageService.appendContent
    rw [if_neg (by simp [h])]

def noteEggs : Note :=
  { id := 3, userId := "u1", title := "Groceries", content := "eggs", tags := [],
    isPinned := false, photoUrl := none, createdAt := 0, updatedAt := 0 }

def storeEggs : Store :=
  { tasks := [], events := [], notes := [noteEggs], transactions := [] }

/-- Witness for C6's theorem at a concrete append. -/
theorem c6_append_preserves_content_witness :
    ((SupabaseStorageService.notesCreate storeEggs "u1" 4 9
        { title := none, content := "Groceries: milk", tags := none,
          photoUrl := none }).2).content =
      SupabaseStorageService.appendContent noteEggs.content "milk" :=
  (c6_append_preserves_content storeEggs "u1" 4 9
    { title := none, content := "Groceries: milk", tags := none, photoUrl := none }
    ⟨"Groceries", "milk"⟩ noteEggs (by decide) (by decide)).1

/-! ### C8 -/

/-- C8 counterexample: a note captured without a title whose content is
"Groceries: milk" matches the bucket pattern; with no existing bucket note
the created note is titled "Groceries", which is neither the first 50
characters of the original content nor of the created note's content. -/
theorem c8_bucket_title_counterexample :
    ((SupabaseStorageService.notesCreate emptyStore "u1" 0 3
        { title := none, content := "Groceries: milk", tags := none,
          photoUrl := none }).2).title = "Groceries" ∧
    ((SupabaseStorageService.notesCreate emptyStore "u1" 0 3
        { title := none, content := "Groceries: milk", tags := none,
          photoUrl := none }).2).content = "<div>â€¢ milk</div>" ∧
    "Groceries" ≠ String.mk ("Groceries: milk".data.take 50) ∧
    "Groceries" ≠ String.mk ("<div>â€¢ milk</div>".data.take 50) := by
  refine ⟨by decide, by decide, by decide, by decide⟩

/-- C8 (amended): for a Note capture with the title omitted, the created
note's title is the first 50 characters of its content when the
title-or-content does not match the bucket pattern; when it matches and no
existing bucket note is found, the created note's title is the extracted
bucket title instead. -/
theorem c8_default_note_title (st : Store) (u : String) (nowMs : Int) (newId : Nat)
    (nd : ParsedNote) (ht : nd.title = none) :
    (extractMergeInfo nd.title nd.content = none →
      ((SupabaseStorageService.notesCreate st u nowMs newId nd).2).title =
        nd.content.take 50) ∧
    (∀ mi, extractMergeInfo nd.title nd.content = some mi →
      SupabaseStorageService.findMergeTarget st u mi.bucketTitle = none →
      ((SupabaseStorageService.notesCreate st u nowMs newId nd).2).title =
        mi.bucketTitle) := by
  constructor
  · intro h
    rw [ht] at h
    simp [SupabaseStorageService.notesCreate, h,
      SupabaseStorageService.insertNote, ht, orElseStr]
  · intro mi hmi htgt
    have hb := (extractMergeInfo_trims nd.title nd.content mi hmi).1
    rw [ht] at hmi
    simp [SupabaseStorageService.notesCreate, hmi, htgt,
      SupabaseStorageService.insertNote, ht, orElseStr, hb]

/-- Witness for C8's theorem: a plain note without bucket pattern gets the
50-character default title. -/
theorem c8_default_note_title_witness :
    ((SupabaseStorageService.notesCreate emptyStore "u1" 0 3
        { title := none, content := "remember the blue door code", tags := none,
          photoUrl := none }).2).title = "remember the blue door code".take 50 :=
  (c8_default_note_title emptyStore "u1" 0 3
    { title := none, content := "remember the blue door code", tags := none,
      photoUrl := none } rfl).1 (by decide)

/-! ### C9 -/

/-- C9: appending a captured entry to an existing bucket note rewrites only
that note's content and update timestamp; the task, event and transaction
collections are untouched, the number of notes is unchanged, every other
note is unchanged, and every note of the result matches a prior note in
everything except content and update timestamp. -/
theorem c9_append_frame (st : Store) (u : String) (nowMs : Int) (newId : Nat)
    (nd : ParsedNote) (mi : MergeInfo) (n : Note)
    (hmi : extractMergeInfo nd.title nd.content = some mi)
    (htgt : SupabaseStorageService.findMergeTarget st u mi.bucketTitle = some n) :
    ((SupabaseStorageService.notesCreate st u nowMs newId nd).1).tasks = st.tasks ∧
    ((SupabaseStorageService.notesCreate st u nowMs newId nd).1).events = st.events ∧
    ((SupabaseStorageService.notesCreate st u nowMs newId nd).1).transactions =
      st.transactions ∧
    ((SupabaseStorageService.notesCreate st u nowMs newId nd).1).notes =
      st.notes.map (fun m =>
        if m.id = n.id then
          { m with content := SupabaseStorageService.appendContent n.content mi.entry,
                   updatedAt := nowMs }
        else m) ∧
    ((SupabaseStorageService.notesCreate st u nowMs newId nd).1).notes.length =
      st.notes.length ∧
    (∀ m ∈ st.notes, m.id ≠ n.id →
      m ∈ ((SupabaseStorageService.notesCreate st u nowMs newId nd).1).notes) ∧
    (∀ m2 ∈ ((SupabaseStorageService.notesCreate st u nowMs newId nd).1).notes,
      ∃ m ∈ st.notes, m2.id = m.id ∧ m2.userId = m.userId ∧ m2.title = m.title ∧
        m2.tags = m.tags ∧ m2.isPinned = m.isPinned ∧ m2.photoUrl = m.photoUrl ∧
        m2.createdAt = m.createdAt) := by
  have hnotes : ((SupabaseStorageService.notesCreate st u nowMs newId nd).1).notes =
      st.notes.map (fun m =>
        if m.id = n.id then
          { m with content := SupabaseStorageService.appendContent n.content mi.entry,
                   updatedAt := nowMs }
        else m) := by
    simp [SupabaseStorageService.notesCreate, hmi, htgt]
  refine ⟨by simp [SupabaseStorageService.notesCreate, hmi, htgt],
    by simp [SupabaseStorageService.notesCreate, hmi, htgt],
    by simp [SupabaseStorageService.notesCreate, hmi, htgt],
    hnotes, by rw [hnotes]; exact List.length_map _ _, ?_, ?_⟩
  · intro m hm hid
    rw [hnotes]
    exact List.mem_map.mpr ⟨m, hm, by simp [hid]⟩
  · intro m2 hm2
    rw [hnotes] at hm2
    rcases List.mem_map.mp hm2 with ⟨m, hm, hfm⟩
    by_cases hid : m.id = n.id
    · rw [if_pos hid] at hfm
      exact ⟨m, hm, by rw [← hfm], by rw [← hfm], by rw [← hfm], by rw [← hfm],
        by rw [← hfm], by rw [← hfm], by rw [← hfm]⟩
    · rw [if_neg hid] at hfm
      exact ⟨m, hm, by rw [← hfm], by rw [← hfm], by rw [← hfm], by rw [← hfm],
        by rw [← hfm], by rw [← hfm], by rw [← hfm]⟩

/-- Witness for C9's theorem at a concrete append into a two-note store. -/
theorem c9_append_frame_witness :
    ((SupabaseStorageService.notesCreate
        { tasks := [], events := [], notes := [noteEggs, noteToDo], transactions := [] }
        "u1" 4 9
        { title := none, content := "Groceries: milk", tags := none,
          photoUrl := none }).1).notes.length =
      ([noteEggs, noteToDo] : List Note).length :=
  (c9_append_frame
    { tasks := [], events := [], notes := [noteEggs, noteToDo], transactions := [] }
    "u1" 4 9
    { title := none, content := "Groceries: milk", tags := none, photoUrl := none }
    ⟨"Groceries", "milk"⟩ noteEggs (by decide) (by decide)).2.2.2.2.1

/-! ### C1 and C3 -/

def envNoAuth : CaptureEnv :=
  { accessToken := none, pushResult := Except.ok none, uploadResult := Except.ok "url",
    userId := "u1", nowMs := 0, tz := 0, freshId := 1 }

def invertedParsedEvent : ParsedEvent :=
  { title := "standup", description := none, startTime := 1000, endTime := 1000,
    location := none, isRecurring := none, recurrenceRule := none }

/-- C1 counterexample: the classifier returns an event whose endTime equals
its startTime; handleConfirm persists the inverted interval unchanged and
reports success — no rejection happens anywhere in the capture path. -/
theorem c1_inverted_interval_counterexample :
    (handleConfirm envNoAuth emptyStore false (CaptureData.event invertedParsedEvent)).ok
      = true ∧
    (handleConfirm envNoAuth emptyStore false
        (CaptureData.event invertedParsedEvent)).store.events =
      [{ id := 1, userId := "u1", title := "standup", description := none,
         startTime := 1000, endTime := 1000, location := none, isRecurring := false,
         recurrenceRule := none, googleEventId := none, color := "#cba6f7",
         createdAt := 0, updatedAt := 0 }] ∧
    ¬ invertedParsedEvent.startTime < invertedParsedEvent.endTime := by
  refine ⟨by decide, by decide, by decide⟩

/-- C1 (amended): the orchestrator performs no validation of the event
interval: for every classified event with endTime ≤ startTime, handleConfirm
reports success and the store contains an event carrying exactly the
returned startTime and endTime. -/
theorem c1_no_interval_validation (env : CaptureEnv) (st : Store) (d : ParsedEvent)
    (hle : d.endTime ≤ d.startTime) :
    (handleConfirm env st false (CaptureData.event d)).ok = true ∧
    ∃ e ∈ (handleConfirm env st false (CaptureData.event d)).store.events,
      e.startTime = d.startTime ∧ e.endTime = d.endTime := by
  refine ⟨rfl, ?_⟩
  simp only [handleConfirm]
  split
  · refine ⟨(SupabaseStorageService.eventsCreate st env.userId env.nowMs env.freshId d).2,
      ?_, rfl, rfl⟩
    simp [SupabaseStorageService.eventsCreate]
  · rename_i gv heq
    split
    · refine ⟨{ (SupabaseStorageService.eventsCreate st env.userId env.nowMs
            env.freshId d).2 with googleEventId := some gv, updatedAt := env.nowMs },
        ?_, rfl, rfl⟩
      unfold SupabaseStorageService.eventsUpdateGoogleId
      refine List.mem_map.mpr
        ⟨(SupabaseStorageService.eventsCreate st env.userId env.nowMs env.freshId d).2,
          by simp [SupabaseStorageService.eventsCreate], by simp⟩
    · refine ⟨(SupabaseStorageService.eventsCreate st env.userId env.nowMs
          env.freshId d).2, ?_, rfl, rfl⟩
      simp [SupabaseStorageService.eventsCreate]
  · refine ⟨(SupabaseStorageService.eventsCreate st env.userId env.nowMs
        env.freshId d).2, ?_, rfl, rfl⟩
    simp [SupabaseStorageService.eventsCreate]

/-- Witness for C1's theorem: a concrete zero-length interval. -/
theorem c1_no_interval_validation_witness :
    ∃ e ∈ (handleConfirm envNoAuth emptyStore false
        (CaptureData.event invertedParsedEvent)).store.events,
      e.startTime = invertedParsedEvent.startTime ∧
        e.endTime = invertedParsedEvent.endTime :=
  (c1_no_interval_validation envNoAuth emptyStore invertedParsedEvent (by decide)).2

def meetingParsedEvent : ParsedEvent :=
  { title := "meeting", description := none, startTime := 5000, endTime := 9000,
    location := none, isRecurring := none, recurrenceRule := none }

/-- C3 counterexample: with no access token the bridge call raises ('Not
authenticated with Google') instead of returning a skipped signal; the
orchestrator catches it, the event stays persisted with no external id, and
the capture reports success. -/
theorem c3_push_raises_counterexample :
    pushToGoogleCalendar envNoAuth
        { id := 1, userId := "u1", title := "meeting", description := none,
          startTime := 5000, endTime := 9000, location := none, isRecurring := false,
          recurrenceRule := none, googleEventId := none, color := "#cba6f7",
          createdAt := 0, updatedAt := 0 }
      = Except.error "Not authenticated with Google" ∧
    (handleConfirm envNoAuth emptyStore false (CaptureData.event meetingParsedEvent)).ok
      = true ∧
    ((handleConfirm envNoAuth emptyStore false
        (CaptureData.event meetingParsedEvent)).store.events.map Event.googleEventId) =
      [none] := by
  exact ⟨rfl, rfl, rfl⟩

/-- C3 (amended): when the bridge has no access token, pushToGoogleCalendar
raises the not-authenticated error (it does not return a skip signal); the
orchestrator catches any push failure, so the event capture still succeeds
and the store gains exactly the locally persisted event with
googleEventId = none. -/
theorem c3_unauthenticated_push_tolerated (env : CaptureEnv) (st : Store)
    (d : ParsedEvent) (h : env.accessToken = none) :
    (∀ e : Event, pushToGoogleCalendar env e =
      Except.error "Not authenticated with Google") ∧
    (handleConfirm env st false (CaptureData.event d)).ok = true ∧
    (handleConfirm env st false (CaptureData.event d)).store.events =
      st.events ++
        [{ id := env.freshId, userId := env.userId, title := d.title,
           description := orNullStr d.description, startTime := d.startTime,
           endTime := d.endTime, location := orNullStr d.location,
           isRecurring := orFalse d.isRecurring,
           recurrenceRule := orNullStr d.recurrenceRule, googleEventId := none,
           color := "#cba6f7", createdAt := env.nowMs, updatedAt := env.nowMs }] := by
  have hpush : ∀ e : Event, pushToGoogleCalendar env e =
      Except.error "Not authenticated with Google" := by
    intro e
    simp [pushToGoogleCalendar, googleCalendarRequest, h]
  refine ⟨hpush, rfl, ?_⟩
  simp only [handleConfirm, hpush]
  simp [SupabaseStorageService.eventsCreate]

/-- Witness for C3's theorem at the concrete unauthenticated environment. -/
theorem c3_unauthenticated_push_tolerated_witness :
    (handleConfirm envNoAuth emptyStore false
        (CaptureData.event meetingParsedEvent)).ok = true :=
  (c3_unauthenticated_push_tolerated envNoAuth emptyStore meetingParsedEvent rfl).2.1

/-! ### C4 -/

def envUploadFail : CaptureEnv :=
  { accessToken := none, pushResult := Except.ok none,
    uploadResult := Except.error (), userId := "u1", nowMs := 0, tz := 0,
    freshId := 2 }

def noteWithPhoto : Note :=
  { id := 11, userId := "u1", title := "Groceries", content := "bread", tags := [],
    isPinned := false, photoUrl := some "pic.png", createdAt := 0, updatedAt := 0 }

def storeWithPhoto : Store :=
  { tasks := [], events := [], notes := [noteWithPhoto], transactions := [] }

def groceriesNoteCapture : ParsedNote :=
  { title := none, content := "Groceries: milk", tags := none, photoUrl := none }

/-- C4 counterexample: a note capture with an attached photo whose upload
fails appends to an existing bucket note; the call succeeds with the upload
warning, but the resulting record keeps its previous photoUrl — it is not
persisted with photoUrl = null as the claim states. -/
theorem c4_append_keeps_photo_counterexample :
    (handleConfirm envUploadFail storeWithPhoto true
        (CaptureData.note groceriesNoteCapture)).ok = true ∧
    (handleConfirm envUploadFail storeWithPhoto true
        (CaptureData.note groceriesNoteCapture)).notices = [uploadFailedNotice] ∧
    ((handleConfirm envUploadFail storeWithPhoto true
        (CaptureData.note groceriesNoteCapture)).store.notes.map Note.photoUrl) =
      [some "pic.png"] ∧
    ((handleConfirm envUploadFail storeWithPhoto true
        (CaptureData.note groceriesNoteCapture)).store.notes.map Note.content) =
      ["bread<br /><div>â€¢ milk</div>"] := by
  refine ⟨by decide, by decide, by decide, by decide⟩

/-- C4 (amended): when the photo upload fails for a capture of a
photo-supporting kind, the capture still succeeds and shows exactly the
non-fatal upload warning; every task, transaction or note record the call
adds is persisted with photoUrl = none, and a note append leaves the target
note's previous photoUrl unchanged (the uploaded photo is dropped). -/
theorem c4_upload_failure_tolerated (env : CaptureEnv) (st : Store) (cd : CaptureData)
    (hsupp : supportsPhotoKind cd = true) (hup : env.uploadResult = Except.error ()) :
    (handleConfirm env st true cd).ok = true ∧
    (handleConfirm env st true cd).notices = [uploadFailedNotice] ∧
    (∀ t ∈ (handleConfirm env st true cd).store.tasks,
      t ∈ st.tasks ∨ t.photoUrl = none) ∧
    (∀ x ∈ (handleConfirm env st true cd).store.transactions,
      x ∈ st.transactions ∨ x.photoUrl = none) ∧
    (∀ n ∈ (handleConfirm env st true cd).store.notes,
      n ∈ st.notes ∨ n.photoUrl = none ∨
        ∃ m ∈ st.notes, n.id = m.id ∧ n.photoUrl = m.photoUrl) := by
  have hup2 : (if true && supportsPhotoKind cd then
      match env.uploadResult with
      | Except.ok url => ((some url : Option String), ([] : List String))
      | Except.error _ => (none, [uploadFailedNotice])
    else if true && !(supportsPhotoKind cd) then (none, [photoUnsupportedNotice])
    else (none, [])) = ((none : Option String), [uploadFailedNotice]) := by
    simp [hsupp, hup]
  cases cd with
  | task d =>
    refine ⟨rfl, ?_, ?_, ?_, ?_⟩
    · simp only [handleConfirm, hup2]
    · intro t ht
      simp only [handleConfirm, hup2, SupabaseStorageService.tasksCreate] at ht
      rcases List.mem_append.mp ht with hmem | hmem
      · exact Or.inl hmem
      · right
        rcases List.mem_singleton.mp hmem with rfl
        rfl
    · intro x hx
      simp only [handleConfirm, hup2, SupabaseStorageService.tasksCreate] at hx
      exact Or.inl hx
    · intro n hn
      simp only [handleConfirm, hup2, SupabaseStorageService.tasksCreate] at hn
      exact Or.inl hn
  | event d => simp [supportsPhotoKind, captureTypeTag] at hsupp
  | expense d =>
    refine ⟨rfl, ?_, ?_, ?_, ?_⟩
    · simp only [handleConfirm, hup2]
    · intro t ht
      simp only [handleConfirm, hup2, SupabaseStorageService.transactionsCreate] at ht
      exact Or.inl ht
    · intro x hx
      simp only [handleConfirm, hup2, SupabaseStorageService.transactionsCreate] at hx
      rcases List.mem_append.mp hx with hmem | hmem
      · exact Or.inl hmem
      · right
        rcases List.mem_singleton.mp hmem with rfl
        rfl
    · intro n hn
      simp only [handleConfirm, hup2, SupabaseStorageService.transactionsCreate] at hn
      exact Or.inl hn
  | income d =>
    refine ⟨rfl, ?_, ?_, ?_, ?_⟩
    · simp only [handleConfirm, hup2]
    · intro t ht
      simp only [handleConfirm, hup2, SupabaseStorageService.transactionsCreate] at ht
      exact Or.inl ht
    · intro x hx
      simp only [handleConfirm, hup2, SupabaseStorageService.transactionsCreate] at hx
      rcases List.mem_append.mp hx with hmem | hmem
      · exact Or.inl hmem
      · right
        rcases List.mem_singleton.mp hmem with rfl
        rfl
    · intro n hn
      simp only [handleConfirm, hup2, SupabaseStorageService.transactionsCreate] at hn
      exact Or.inl hn
  | note d =>
    refine ⟨rfl, ?_, ?_, ?_, ?_⟩
    · simp only [handleConfirm, hup2]
    · intro t ht
      simp only [handleConfirm, hup2] at ht
      rcases hmi : extractMergeInfo (ParsedNote.title { d with photoUrl := none })
          (ParsedNote.content { d with photoUrl := none }) with _ | mi
      · simp only [SupabaseStorageService.notesCreate, hmi,
          SupabaseStorageService.insertNote] at ht
        exact Or.inl ht
      · rcases htgt : SupabaseStorageService.findMergeTarget st env.userId
            mi.bucketTitle with _ | n
        · simp only [SupabaseStorageService.notesCreate, hmi, htgt,
            SupabaseStorageService.insertNote] at ht
          exact Or.inl ht
        · simp only [SupabaseStorageService.notesCreate, hmi, htgt] at ht
          exact Or.inl ht
    · intro x hx
      simp only [handleConfirm, hup2] at hx
      rcases hmi : extractMergeInfo (ParsedNote.title { d with photoUrl := none })
          (ParsedNote.content { d with photoUrl := none }) with _ | mi
      · simp only [SupabaseStorageService.notesCreate, hmi,
          SupabaseStorageService.insertNote] at hx
        exact Or.inl hx
      · rcases htgt : SupabaseStorageService.findMergeTarget st env.userId
            mi.bucketTitle with _ | n
        · simp only [SupabaseStorageService.notesCreate, hmi, htgt,
            SupabaseStorageService.insertNote] at hx
          exact Or.inl hx
        · simp only [SupabaseStorageService.notesCreate, hmi, htgt] at hx
          exact Or.inl hx
    · intro n hn
      simp only [handleConfirm, hup2] at hn
      rcases hmi : extractMergeInfo (ParsedNote.title { d with photoUrl := none })
          (ParsedNote.content { d with photoUrl := none }) with _ | mi
      · simp only [SupabaseStorageService.notesCreate, hmi,
          SupabaseStorageService.insertNote] at hn
        rcases List.mem_append.mp hn with hmem | hmem
        · exact Or.inl hmem
        · right; left
          rcases List.mem_singleton.mp hmem with rfl
          rfl
      · rcases htgt : SupabaseStorageService.findMergeTarget st env.userId
            mi.bucketTitle with _ | tgt
        · simp only [SupabaseStorageService.notesCreate, hmi, htgt,
            SupabaseStorageService.insertNote] at hn
          rcases List.mem_append.mp hn with hmem | hmem
          · exact Or.inl hmem
          · right; left
            rcases List.mem_singleton.mp hmem with rfl
            rfl
        · simp only [SupabaseStorageService.notesCreate, hmi, htgt] at hn
          rcases List.mem_map.mp hn with ⟨m, hm, hfm⟩
          by_cases hid : m.id = tgt.id
          · rw [if_pos hid] at hfm
            right; right
            exact ⟨m, hm, by rw [← hfm], by rw [← hfm]⟩
          · rw [if_neg hid] at hfm
            exact Or.inl (hfm ▸ hm)
  | other tag =>
    refine ⟨rfl, ?_, ?_, ?_, ?_⟩
    · simp only [handleConfirm, hup2]
    · intro t ht
      simp only [handleConfirm, hup2] at ht
      exact Or.inl ht
    · intro x hx
      simp only [handleConfirm, hup2] at hx
      exact Or.inl hx
    · intro n hn
      simp only [handleConfirm, hup2] at hn
      exact Or.inl hn

def milkTaskCapture : ParsedTask :=
  { title := "buy milk", description := none, dueDate := none, priority := none,
    isRecurring := none, recurrenceRule := none, photoUrl := none }

/-- Witness for C4's theorem: a task capture with a failing upload in the
empty store. -/
theorem c4_upload_failure_tolerated_witness :
    (handleConfirm envUploadFail emptyStore true
        (CaptureData.task milkTaskCapture)).notices = [uploadFailedNotice] :=
  (c4_upload_failure_tolerated envUploadFail emptyStore
    (CaptureData.task milkTaskCapture) (by decide) rfl).2.1

/-! ### C2 -/

/-- A fenced response whose discriminant is none of the five kinds. -/
def widgetResponse : String :=
  " ```json\n\x7b\"type\":\"widget\",\"data\":1\x7d\n``` "

/-- C2 counterexample: a response that parses (after fence stripping) to an
object with discriminant "widget" — not one of the five kinds — is not
rejected: classify returns it unchanged instead of failing with the
classification error. -/
theorem c2_unknown_kind_counterexample :
    parseCapture (Except.ok widgetResponse) =
      Except.ok (JsValue.objv [("type", JsValue.strv "widget"),
        ("data", JsValue.numv "1")]) ∧
    ¬ ("widget" ∈ knownKinds) := by
  refine ⟨rfl, by decide⟩

/-- C2 (amended): classify fails exactly when the external call errors, or
the fence-stripped response is not parseable JSON, or the post-parse date
conversion throws a TypeError (a null parsed value, or a
task/event/expense/income object whose data is missing or unusable); in
particular an object whose discriminant is none of the five known kinds is
returned as-is, without error and without being one of the five variants. -/
theorem c2_classification_failure_modes :
    (parseCapture (Except.error ()) = Except.error ()) ∧
    (∀ s : String, jsonParseTop (cleanResponse s) = none →
      parseCapture (Except.ok s) = Except.error ()) ∧
    (∀ (s : String) (j : JsValue), jsonParseTop (cleanResponse s) = some j →
      parseCapture (Except.ok s) = convertDates j) ∧
    (∀ fs : List (String × JsValue),
      (∀ k ∈ knownKinds, isTag (lookupField fs "type") k = false) →
      convertDates (JsValue.objv fs) = Except.ok (JsValue.objv fs)) := by
  refine ⟨rfl, ?_, ?_, ?_⟩
  · intro s h
    simp [parseCapture, h]
  · intro s j h
    simp [parseCapture, h]
  · intro fs h
    have h1 := h "task" (by simp [knownKinds])
    have h2 := h "event" (by simp [knownKinds])
    have h3 := h "expense" (by simp [knownKinds])
    have h4 := h "income" (by simp [knownKinds])
    simp [convertDates, jsGet, h1, h2, h3, h4, Bind.bind, Except.bind, Pure.pure,
      Except.pure]

/-- Witness for C2's theorem: an unparseable response fails classify. -/
theorem c2_classification_failure_modes_witness :
    parseCapture (Except.ok "not json") = Except.error () :=
  c2_classification_failure_modes.2.1 "not json" rfl

end LifeOS
